import Mathlib

/-!
# Verification of the `set` package (github.com/Heebron/set/v2)

Shallow embedding of `src/set.go` (the revision with the empty-transition
trigger channel, lines 79-435, plus `SymmetricDifference` from lines 603-620
which has the same member semantics over the same struct).

Modelling decisions:
* The Go backing store `map[T]void` is modelled as a `Finset T`; inserting in
  a loop over a map corresponds to `Finset` union / filter / insert.
* The `mutex *sync.RWMutex` field only matters through its nil-ness, so it is
  modelled as a `Bool` (`true` iff the pointer is non-nil, i.e. the set is
  concurrent/coordinated).
* The `trigger chan struct\x7b\x7d` field is modelled by its observable state:
  `nilc` (the Go nil channel, zero value, never `make`d), `opened`
  (created by `make`, not yet closed — "armed"), `closed` (after `close` —
  "fired").  In Go, `close` on a nil or already-closed channel panics.
* Panics are modelled by `Option`: a function returns `none` exactly when the
  Go code panics on that input.
* `WaitForEmptyWithTimeout` is given its sequential semantics (no concurrent
  mutator during the call): the `select` on the captured channel returns
  immediately when the captured channel is closed and otherwise blocks for the
  full (normalized) timeout; the function returns the post-call struct state,
  the boolean result of the final re-check, and the time spent blocked.
  `time.Duration` is an `int64` nanosecond count, modelled as `Int`.
-/

namespace SetPkg

/-- Observable state of a Go `chan struct\x7b\x7d` used as the empty-transition
trigger: the nil channel (zero value), an open channel made by `make`, or a
closed channel. -/
inductive Chan where
  | nilc : Chan
  | opened : Chan
  | closed : Chan
  deriving DecidableEq, Repr

/-- The Go struct `Set[T]` from `src/set.go` lines 110-114: a member map, an
optional mutex (modelled by its presence), and the trigger channel. -/
structure Set (T : Type) where
  members : Finset T
  mutex : Bool
  trigger : Chan
  deriving DecidableEq

/-- `New` (lines 133-136): a non-concurrent empty set; all struct fields other
than the fresh map are zero values. -/
def New (T : Type) : Set T := ⟨∅, false, Chan.nilc⟩

/-- `NewWithInitializer` (lines 138-145): a non-concurrent set pre-populated
from the variadic argument list. -/
def NewWithInitializer {T : Type} [DecidableEq T] (init : List T) : Set T :=
  ⟨init.toFinset, false, Chan.nilc⟩

/-- `NewConcurrent` (lines 116-119): a concurrent empty set; the trigger is
left as the zero value (nil channel). -/
def NewConcurrent (T : Type) : Set T := ⟨∅, true, Chan.nilc⟩

/-- `NewConcurrentWithInitializer` (lines 121-131): a concurrent set
pre-populated from the argument list; the trigger channel is `make`d only when
the resulting member map is non-empty. -/
def NewConcurrentWithInitializer {T : Type} [DecidableEq T] (init : List T) : Set T :=
  ⟨init.toFinset, true, if init.toFinset = ∅ then Chan.nilc else Chan.opened⟩

/-- `Add` (lines 149-165): under the (modelled-away) lock, if the set is
concurrent and currently empty a fresh trigger channel is made; then the
element is inserted, returning whether the map changed. -/
def Add {T : Type} [DecidableEq T] (s : Set T) (e : T) : Set T × Bool :=
  let s1 := if s.mutex = true ∧ s.members = ∅ then { s with trigger := Chan.opened } else s
  if e ∈ s1.members then (s1, false)
  else ({ s1 with members := insert e s1.members }, true)

/-- `Remove` (lines 169-188): delete `e` if present; when the set is
concurrent and the size went from 1 to 0, `close(s.trigger)` — which panics
(`none`) unless the trigger is an open channel. -/
def Remove {T : Type} [DecidableEq T] (s : Set T) (e : T) : Option (Set T × Bool) :=
  if e ∈ s.members then
    let members' := s.members.erase e
    if s.mutex = true ∧ s.members.card = 1 ∧ members'.card = 0 then
      match s.trigger with
      | Chan.opened => some ({ s with members := members', trigger := Chan.closed }, true)
      | _ => none
    else
      some ({ s with members := members' }, true)
  else some (s, false)

/-- `Contains` (lines 191-198): membership test under a read lock. -/
def Contains {T : Type} [DecidableEq T] (s : Set T) (e : T) : Bool :=
  decide (e ∈ s.members)

/-- `Size` (lines 259-265): `len(s.members)`. -/
def Size {T : Type} (s : Set T) : Nat := s.members.card

/-- `IsEmpty` (lines 268-270): `s.Size() == 0`. -/
def IsEmpty {T : Type} (s : Set T) : Bool := decide (Size s = 0)

/-- `Members` (lines 274-286): a snapshot slice of all members.  The slice
order is unspecified, so the snapshot is modelled by its set of elements. -/
def Members {T : Type} (s : Set T) : Finset T := s.members

/-- `Clear` (lines 289-302): empty the map; when the set is concurrent and was
non-empty before, `close(s.trigger)` — which panics (`none`) unless the
trigger is an open channel. -/
def Clear {T : Type} (s : Set T) : Option (Set T) :=
  if s.mutex = true ∧ s.members.card > 0 then
    match s.trigger with
    | Chan.opened => some { s with members := ∅, trigger := Chan.closed }
    | _ => none
  else some { s with members := ∅ }

/-- `Union` (lines 230-256): a new set built by `NewConcurrent`/`New`
according to the receiver's mode (so its trigger is the nil channel), whose
map receives every key of `s` and then every key of `rhs` by direct map
writes. -/
def Union {T : Type} [DecidableEq T] (s rhs : Set T) : Set T :=
  ⟨s.members ∪ rhs.members, s.mutex, Chan.nilc⟩

/-- `Intersect` (lines 202-226): a new set in the receiver's mode (nil
trigger) receiving every key of `rhs` that is also in `s`. -/
def Intersect {T : Type} [DecidableEq T] (s rhs : Set T) : Set T :=
  ⟨rhs.members.filter (fun k => k ∈ s.members), s.mutex, Chan.nilc⟩

/-- `Difference` (lines 327-351): a new set in the receiver's mode (nil
trigger) receiving every key of `s` that is not in `rhs`. -/
def Difference {T : Type} [DecidableEq T] (s rhs : Set T) : Set T :=
  ⟨s.members.filter (fun k => k ∉ rhs.members), s.mutex, Chan.nilc⟩

/-- `SymmetricDifference` (lines 603-620): a new set in the receiver's mode
receiving the keys of `s` not in `rhs` and then the keys of `rhs` not in
`s`. -/
def SymmetricDifference {T : Type} [DecidableEq T] (s rhs : Set T) : Set T :=
  ⟨s.members.filter (fun k => k ∉ rhs.members) ∪
     rhs.members.filter (fun k => k ∉ s.members),
   s.mutex, Chan.nilc⟩

/-- `Clone` (lines 306-323): a new set in the receiver's mode (nil trigger)
receiving every key of `s` into a freshly allocated map. -/
def Clone {T : Type} (s : Set T) : Set T :=
  ⟨s.members, s.mutex, Chan.nilc⟩

/-- `IsSubset` (lines 354-371): true iff every key of `s` is a key of
`rhs`. -/
def IsSubset {T : Type} [DecidableEq T] (s rhs : Set T) : Bool :=
  decide (s.members ⊆ rhs.members)

/-- `Equal` (lines 374-395): size pre-check, then every key of `s` must be a
key of `rhs`. -/
def Equal {T : Type} [DecidableEq T] (s rhs : Set T) : Bool :=
  decide (s.members.card = rhs.members.card) && decide (s.members ⊆ rhs.members)

/-- `WaitForEmptyWithTimeout` (lines 400-435), sequential semantics.  A
negative timeout is normalized to 0; a nil mutex panics (`none`); an empty set
returns `true` without blocking; otherwise the current trigger channel is
captured, the `select` blocks until the captured channel is closed (time 0 if
it already is, else the full normalized timeout, since no concurrent mutator
runs), and the final re-check of `len(s.members)` is returned.  The result is
`(post-call struct state, boolean result, time spent blocked)`. -/
def WaitForEmptyWithTimeout {T : Type} [DecidableEq T] (s : Set T) (timeout : Int) :
    Option (Set T × Bool × Int) :=
  let t := if timeout < 0 then 0 else timeout
  if s.mutex = false then none
  else if s.members = ∅ then some (s, true, 0)
  else
    let blocked := if s.trigger = Chan.closed then 0 else t
    some (s, decide (s.members = ∅), blocked)

/-- The spec's trigger invariant for the data model (§3): in coordinated mode
the trigger exists and is armed (an open channel) whenever the member map is
non-empty. -/
def Armed {T : Type} [DecidableEq T] (s : Set T) : Bool :=
  if s.mutex = true then
    if s.members = ∅ then true else decide (s.trigger = Chan.opened)
  else true

/-!
## Heap model

The independence half of the `Clone` contract is about aliasing of the Go map
storage, which a purely functional state cannot express.  The heap model makes
the map reference explicit: a heap is the list of allocated Go maps, a struct
holds the index of its backing map, and each constructor or derived-set
operation that calls `make(map[T]void)` appends a fresh map to the heap.  The
operations below are the same translations of `src/set.go` as above, with the
map dereference made explicit.
-/

/-- The Go struct `Set[T]` with its backing-map reference explicit: `mapRef`
is the index of the map in the heap. -/
structure HSet where
  mapRef : Nat
  mutex : Bool
  trigger : Chan
  deriving DecidableEq, Repr

/-- The allocated Go maps, indexed by `HSet.mapRef`; allocation appends. -/
abbrev Heap (T : Type) : Type := List (Finset T)

/-- Dereference a struct's backing map. -/
def hmembers {T : Type} (h : Heap T) (s : HSet) : Finset T :=
  List.getD h s.mapRef ∅

/-- `Clone` (lines 306-323) in the heap model: `NewConcurrent`/`New`
allocates a fresh map (appended at index `h.length`) in the receiver's mode
with a zero-value (nil) trigger, and the copy loop fills it with the
receiver's members. -/
def HClone {T : Type} (h : Heap T) (s : HSet) : Heap T × HSet :=
  (List.append h [hmembers h s], ⟨List.length h, s.mutex, Chan.nilc⟩)

/-- `Add` (lines 149-165) in the heap model: possibly re-arm the trigger,
then insert into the backing map in place. -/
def HAdd {T : Type} [DecidableEq T] (h : Heap T) (s : HSet) (e : T) :
    Heap T × HSet × Bool :=
  let s1 := if s.mutex = true ∧ hmembers h s = ∅ then { s with trigger := Chan.opened } else s
  if e ∈ hmembers h s then (h, s1, false)
  else (List.set h s.mapRef (insert e (hmembers h s)), s1, true)

/-- `Remove` (lines 169-188) in the heap model: delete from the backing map
in place; `close` of a non-open trigger panics (`none`). -/
def HRemove {T : Type} [DecidableEq T] (h : Heap T) (s : HSet) (e : T) :
    Option (Heap T × HSet × Bool) :=
  if e ∈ hmembers h s then
    let members' := (hmembers h s).erase e
    if s.mutex = true ∧ (hmembers h s).card = 1 ∧ members'.card = 0 then
      match s.trigger with
      | Chan.opened =>
          some (List.set h s.mapRef members', { s with trigger := Chan.closed }, true)
      | _ => none
    else
      some (List.set h s.mapRef members', s, true)
  else some (h, s, false)

/-- `Clear` (lines 289-302) in the heap model: empty the backing map in
place; `close` of a non-open trigger panics (`none`). -/
def HClear {T : Type} (h : Heap T) (s : HSet) : Option (Heap T × HSet) :=
  if s.mutex = true ∧ (hmembers h s).card > 0 then
    match s.trigger with
    | Chan.opened => some (List.set h s.mapRef ∅, { s with trigger := Chan.closed })
    | _ => none
  else some (List.set h s.mapRef ∅, s)

/-- `Equal` (lines 374-395) in the heap model. -/
def HEqual {T : Type} [DecidableEq T] (h : Heap T) (s rhs : HSet) : Bool :=
  decide ((hmembers h s).card = (hmembers h rhs).card) &&
    decide (hmembers h s ⊆ hmembers h rhs)

/-!
## Helper lemmas
-/

/-- A heap write at an index other than a struct's map reference leaves that
struct's members unchanged. -/
theorem hmembers_set_ne {T : Type} (h : Heap T) (i : Nat) (v : Finset T) (t : HSet)
    (hne : i ≠ t.mapRef) : hmembers (List.set h i v) t = hmembers h t := by
  simp [hmembers, List.getD_eq_getElem?_getD, List.getElem?_set_ne hne]

/-- Cloning does not move the original's backing map. -/
theorem hmembers_clone_orig {T : Type} (h : Heap T) (s : HSet)
    (hs : s.mapRef < List.length h) :
    hmembers (HClone h s).1 s = hmembers h s := by
  simp [HClone, hmembers, List.getD_eq_getElem?_getD, List.getElem?_append_left hs]

/-- The clone's freshly allocated map holds a copy of the original's
members. -/
theorem hmembers_clone_new {T : Type} (h : Heap T) (s : HSet) :
    hmembers (HClone h s).1 (HClone h s).2 = hmembers h s := by
  simp [HClone, hmembers, List.getD_eq_getElem?_getD, List.getElem?_concat_length]

/-- `Add` leaves the trigger aside and always produces the member map
`insert e members`; the boolean reports whether `e` was absent. -/
theorem Add_spec {T : Type} [DecidableEq T] (s : Set T) (e : T) :
    (Add s e).1.members = insert e s.members ∧
      (Add s e).2 = decide (e ∉ s.members) ∧
      (Add s e).1.mutex = s.mutex := by
  by_cases hc : s.mutex = true ∧ s.members = ∅
  · have he : e ∉ s.members := by
      rw [hc.2]
      exact Finset.not_mem_empty e
    simp [Add, hc, he]
  · by_cases he : e ∈ s.members
    · simp [Add, hc, he, Finset.insert_eq_self.mpr he]
    · simp [Add, hc, he]

/-!
## The claims
-/

/-- C1: for every coordinated set — including sets produced by Union,
Intersect, Difference, or Clone of a coordinated receiver — the trigger is
claimed to be an open channel whenever the member map is non-empty, and to be
fired exactly once on each non-empty-to-empty transition.  The code violates
this: the derived-set operations build the result with `NewConcurrent`, whose
trigger is the nil channel, and copy members by direct map writes that never
arm it.  Concretely, the clone of the coordinated one-element set `\x7b1\x7d` is
coordinated and non-empty yet its trigger is the nil channel, and `Clear` on
it executes `close(nil)`, which panics. -/
theorem c1_derived_set_trigger_unarmed :
    (Clone (NewConcurrentWithInitializer [(1 : Nat)])).mutex = true ∧
    (Clone (NewConcurrentWithInitializer [(1 : Nat)])).members ≠ ∅ ∧
    (Clone (NewConcurrentWithInitializer [(1 : Nat)])).trigger = Chan.nilc ∧
    Clear (Clone (NewConcurrentWithInitializer [(1 : Nat)])) = none := by
  decide

/-- C2: calling `WaitForEmptyWithTimeout` on an uncoordinated set (built by
`New` or `NewWithInitializer`) panics for every timeout value, positive, zero,
or negative; it never returns normally. -/
theorem c2_wait_on_uncoordinated_panics {T : Type} [DecidableEq T]
    (init : List T) (timeout : Int) :
    WaitForEmptyWithTimeout (New T) timeout = none ∧
    WaitForEmptyWithTimeout (NewWithInitializer init) timeout = none := by
  constructor <;> simp [WaitForEmptyWithTimeout, New, NewWithInitializer]

/-- C3: the claim that no operation on a validly constructed set panics — the
single fatal path being `WaitForEmptyWithTimeout` on an uncoordinated set —
fails: `Clear` on the non-empty coordinated set produced by `Union` executes
`close(nil)` and panics, because `Union` never arms the result's trigger. -/
theorem c3_clear_on_derived_union_panics :
    Clear (Union (NewConcurrentWithInitializer [(1 : Nat), 2]) (NewConcurrent Nat))
      = none ∧
    Remove (Intersect (NewConcurrentWithInitializer [(1 : Nat), 2])
        (NewConcurrentWithInitializer [(2 : Nat)])) 2
      = none := by
  decide

/-- C4: a negative timeout behaves exactly as timeout zero, and on a
coordinated set that is empty at the time of the call the function returns
`true` immediately (blocking time 0) for every timeout value. -/
theorem c4_wait_negative_and_empty {T : Type} [DecidableEq T]
    (s : Set T) (timeout : Int) :
    (timeout < 0 → WaitForEmptyWithTimeout s timeout = WaitForEmptyWithTimeout s 0) ∧
    (s.mutex = true → s.members = ∅ →
      WaitForEmptyWithTimeout s timeout = some (s, true, 0)) := by
  constructor
  · intro hneg
    simp [WaitForEmptyWithTimeout, hneg]
  · intro hmut hemp
    simp [WaitForEmptyWithTimeout, hmut, hemp]

/-- Witness for C4 at the concrete coordinated empty set with timeout -5. -/
theorem c4_wait_negative_and_empty_witness :
    WaitForEmptyWithTimeout (NewConcurrent Nat) (-5)
      = WaitForEmptyWithTimeout (NewConcurrent Nat) 0 ∧
    WaitForEmptyWithTimeout (NewConcurrent Nat) (-5)
      = some (NewConcurrent Nat, true, 0) :=
  ⟨(c4_wait_negative_and_empty (NewConcurrent Nat) (-5)).1 (by decide),
   (c4_wait_negative_and_empty (NewConcurrent Nat) (-5)).2 (by decide) (by decide)⟩

/-- C5: for all sets `A` and `B` of the same element type, the union's
cardinality satisfies the inclusion-exclusion equation
`Size (A.Union B) = Size A + Size B - Size (A.Intersect B)`, the union holds
exactly the elements of `A` or `B`, and the intersection exactly the elements
of both. -/
theorem c5_union_size_inclusion_exclusion {T : Type} [DecidableEq T] (A B : Set T) :
    Size (Union A B) = Size A + Size B - Size (Intersect A B) ∧
    (∀ e, e ∈ (Union A B).members ↔ e ∈ A.members ∨ e ∈ B.members) ∧
    (∀ e, e ∈ (Intersect A B).members ↔ e ∈ A.members ∧ e ∈ B.members) := by
  refine ⟨?_, ?_, ?_⟩
  · have hcard := Finset.card_union_add_card_inter A.members B.members
    have hint : Size (Intersect A B) = (A.members ∩ B.members).card := by
      simp only [Size, Intersect]
      rw [Finset.filter_mem_eq_inter, Finset.inter_comm]
    simp only [Size, Union] at *
    omega
  · intro e
    simp [Union]
  · intro e
    simp [Intersect, and_comm]

/-- C6: `A.SymmetricDifference B` is `Equal` to
`(A.Difference B).Union (B.Difference A)`, and its members are exactly the
elements in exactly one of the two sets. -/
theorem c6_symmetric_difference {T : Type} [DecidableEq T] (A B : Set T) :
    Equal (SymmetricDifference A B) (Union (Difference A B) (Difference B A)) = true ∧
    (∀ e, e ∈ (SymmetricDifference A B).members ↔
      (e ∈ A.members ∧ e ∉ B.members) ∨ (e ∈ B.members ∧ e ∉ A.members)) := by
  constructor
  · simp [Equal, SymmetricDifference, Union, Difference, Finset.Subset.refl]
  · intro e
    simp [SymmetricDifference]

/-- C7: every set is a subset of itself, the empty set is a subset of every
set, and mutual inclusion holds exactly when `Equal` does. -/
theorem c7_subset_laws {T : Type} [DecidableEq T] (A B : Set T) :
    IsSubset A A = true ∧
    (A.members = ∅ → IsSubset A B = true) ∧
    ((IsSubset A B = true ∧ IsSubset B A = true) ↔ Equal A B = true) := by
  refine ⟨?_, ?_, ?_⟩
  · simp [IsSubset, Finset.Subset.refl]
  · intro hA
    simp [IsSubset, hA, Finset.empty_subset]
  · constructor
    · rintro ⟨h1, h2⟩
      simp only [IsSubset, decide_eq_true_eq] at h1 h2
      have heq : A.members = B.members := Finset.Subset.antisymm h1 h2
      simp [Equal, heq, Finset.Subset.refl]
    · intro h
      simp only [Equal, Bool.and_eq_true, decide_eq_true_eq] at h
      have heq : A.members = B.members :=
        Finset.eq_of_subset_of_card_le h.2 (le_of_eq h.1.symm)
      constructor <;> simp [IsSubset, heq, Finset.Subset.refl]

/-- Witness for C7 at concrete sets, discharging the emptiness hypothesis and
both directions of the equivalence. -/
theorem c7_subset_laws_witness :
    IsSubset (New Nat) (NewWithInitializer [(1 : Nat)]) = true ∧
    Equal (NewWithInitializer [(1 : Nat), 2]) (NewWithInitializer [(2 : Nat), 1]) = true :=
  ⟨(c7_subset_laws (New Nat) (NewWithInitializer [(1 : Nat)])).2.1 (by decide),
   (c7_subset_laws (NewWithInitializer [(1 : Nat), 2])
      (NewWithInitializer [(2 : Nat), 1])).2.2.mp ⟨by decide, by decide⟩⟩

/-- C8: on any set satisfying the spec's trigger invariant (`Armed`), adding
an absent element returns `true`, grows the size by one, and makes `Contains`
true, while a second `Add` of the same element returns `false` and leaves the
size unchanged; removing a present element returns `true`, shrinks the size by
one, and makes `Contains` false, while removing an absent element returns
`false` and leaves the set unchanged. -/
theorem c8_add_remove_semantics {T : Type} [DecidableEq T] (s : Set T) (e : T)
    (hwf : Armed s = true) :
    (e ∉ s.members →
      (Add s e).2 = true ∧
      Size (Add s e).1 = Size s + 1 ∧
      Contains (Add s e).1 e = true ∧
      (Add (Add s e).1 e).2 = false ∧
      Size (Add (Add s e).1 e).1 = Size (Add s e).1) ∧
    (e ∈ s.members →
      ∃ r, Remove s e = some r ∧ r.2 = true ∧
        Size r.1 + 1 = Size s ∧ Contains r.1 e = false) ∧
    (e ∉ s.members → Remove s e = some (s, false)) := by
  refine ⟨?_, ?_, ?_⟩
  · intro he
    obtain ⟨hm1, hb1, _⟩ := Add_spec s e
    obtain ⟨hm2, hb2, _⟩ := Add_spec (Add s e).1 e
    have hmem2 : e ∈ (Add s e).1.members := by
      rw [hm1]
      exact Finset.mem_insert_self e s.members
    refine ⟨by simp [hb1, he], ?_, ?_, by simp [hb2, hmem2], ?_⟩
    · simp [Size, hm1, Finset.card_insert_of_not_mem he]
    · simp [Contains, hmem2]
    · simp [Size, hm2, Finset.insert_eq_self.mpr hmem2]
  · intro he
    have hne : s.members ≠ ∅ := Finset.ne_empty_of_mem he
    have hcard : (s.members.erase e).card + 1 = s.members.card :=
      Finset.card_erase_add_one he
    by_cases hc : s.mutex = true ∧ s.members.card = 1 ∧ (s.members.erase e).card = 0
    · have htrig : s.trigger = Chan.opened := by
        have := hwf
        simp [Armed, hc.1, hne] at this
        exact this
      refine ⟨({ s with members := s.members.erase e, trigger := Chan.closed }, true),
        ?_, rfl, ?_, ?_⟩
      · simp [Remove, he, hc, htrig]
      · simpa [Size] using hcard
      · simp [Contains]
    · refine ⟨({ s with members := s.members.erase e }, true), ?_, rfl, ?_, ?_⟩
      · simp only [Remove, if_pos he, if_neg hc]
      · simpa [Size] using hcard
      · simp [Contains]
  · intro he
    simp [Remove, he]

/-- Witness for C8: `Add` of an absent element on the fresh empty set returns
`true`, and `Remove` of the last element of a coordinated one-element set
(whose trigger invariant holds) succeeds. -/
theorem c8_add_remove_semantics_witness :
    (Add (New Nat) 1).2 = true ∧
    (∃ r, Remove (NewConcurrentWithInitializer [(1 : Nat)]) 1 = some r ∧ r.2 = true ∧
      Size r.1 + 1 = Size (NewConcurrentWithInitializer [(1 : Nat)]) ∧
      Contains r.1 1 = false) :=
  ⟨((c8_add_remove_semantics (New Nat) 1 (by decide)).1 (by decide)).1,
   (c8_add_remove_semantics (NewConcurrentWithInitializer [(1 : Nat)]) 1
      (by decide)).2.1 (by decide)⟩

/-- The heap after `HAdd` is either untouched or a write to the receiver's
backing map. -/
theorem HAdd_heap {T : Type} [DecidableEq T] (h : Heap T) (s : HSet) (e : T) :
    (HAdd h s e).1 = h ∨
      (HAdd h s e).1 = List.set h s.mapRef (insert e (hmembers h s)) := by
  by_cases he : e ∈ hmembers h s
  · left
    simp [HAdd, he]
  · right
    simp [HAdd, he]

/-- When `HRemove` returns (does not panic), the heap is either untouched or a
write to the receiver's backing map. -/
theorem HRemove_heap {T : Type} [DecidableEq T] (h : Heap T) (s : HSet) (e : T)
    (r : Heap T × HSet × Bool) (hr : HRemove h s e = some r) :
    r.1 = h ∨ r.1 = List.set h s.mapRef ((hmembers h s).erase e) := by
  simp only [HRemove] at hr
  split at hr
  · split at hr
    · split at hr
      · obtain rfl := Option.some.inj hr
        right
        rfl
      · exact Option.noConfusion hr
    · obtain rfl := Option.some.inj hr
      right
      rfl
  · obtain rfl := Option.some.inj hr
    left
    rfl

/-- When `HClear` returns (does not panic), the heap is a write of the empty
map to the receiver's backing map. -/
theorem HClear_heap {T : Type} (h : Heap T) (s : HSet)
    (r : Heap T × HSet) (hr : HClear h s = some r) :
    r.1 = List.set h s.mapRef ∅ := by
  simp only [HClear] at hr
  split at hr
  · split at hr
    · obtain rfl := Option.some.inj hr
      rfl
    · exact Option.noConfusion hr
  · obtain rfl := Option.some.inj hr
    rfl

/-- C9: in the heap model, `Clone` produces a set that is `Equal` to the
original at the moment of cloning and has the same concurrency mode, backed by
a freshly allocated map; afterwards, `Add`, `Remove`, or `Clear` applied to
the original never changes the clone's membership, and the same operations
applied to the clone never change the original's membership. -/
theorem c9_clone_equal_and_independent {T : Type} [DecidableEq T]
    (h : Heap T) (s : HSet) (hs : s.mapRef < List.length h) :
    HEqual (HClone h s).1 (HClone h s).2 s = true ∧
    (HClone h s).2.mutex = s.mutex ∧
    (∀ e, hmembers (HAdd (HClone h s).1 s e).1 (HClone h s).2
        = hmembers (HClone h s).1 (HClone h s).2) ∧
    (∀ e, hmembers (HAdd (HClone h s).1 (HClone h s).2 e).1 s
        = hmembers (HClone h s).1 s) ∧
    (∀ e r, HRemove (HClone h s).1 s e = some r →
        hmembers r.1 (HClone h s).2 = hmembers (HClone h s).1 (HClone h s).2) ∧
    (∀ e r, HRemove (HClone h s).1 (HClone h s).2 e = some r →
        hmembers r.1 s = hmembers (HClone h s).1 s) ∧
    (∀ r, HClear (HClone h s).1 s = some r →
        hmembers r.1 (HClone h s).2 = hmembers (HClone h s).1 (HClone h s).2) ∧
    (∀ r, HClear (HClone h s).1 (HClone h s).2 = some r →
        hmembers r.1 s = hmembers (HClone h s).1 s) := by
  have hne1 : s.mapRef ≠ (HClone h s).2.mapRef := Nat.ne_of_lt hs
  have hne2 : (HClone h s).2.mapRef ≠ s.mapRef := (Nat.ne_of_lt hs).symm
  refine ⟨?_, rfl, ?_, ?_, ?_, ?_, ?_, ?_⟩
  · simp [HEqual, hmembers_clone_new h s, hmembers_clone_orig h s hs,
      Finset.Subset.refl]
  · intro e
    rcases HAdd_heap (HClone h s).1 s e with heq | heq <;> rw [heq]
    exact hmembers_set_ne _ _ _ _ hne1
  · intro e
    rcases HAdd_heap (HClone h s).1 (HClone h s).2 e with heq | heq <;> rw [heq]
    exact hmembers_set_ne _ _ _ _ hne2
  · intro e r hr
    rcases HRemove_heap _ _ _ _ hr with heq | heq <;> rw [heq]
    exact hmembers_set_ne _ _ _ _ hne1
  · intro e r hr
    rcases HRemove_heap _ _ _ _ hr with heq | heq <;> rw [heq]
    exact hmembers_set_ne _ _ _ _ hne2
  · intro r hr
    rw [HClear_heap _ _ _ hr]
    exact hmembers_set_ne _ _ _ _ hne1
  · intro r hr
    rw [HClear_heap _ _ _ hr]
    exact hmembers_set_ne _ _ _ _ hne2

/-- Witness for C9 on the one-map heap holding the set `\x7b1, 2\x7d`: the clone
equals the original and adding 5 to the original leaves the clone's members
unchanged. -/
theorem c9_clone_equal_and_independent_witness :
    HEqual (HClone [({1, 2} : Finset Nat)] ⟨0, false, Chan.nilc⟩).1
      (HClone [({1, 2} : Finset Nat)] ⟨0, false, Chan.nilc⟩).2
      ⟨0, false, Chan.nilc⟩ = true ∧
    hmembers
      (HAdd (HClone [({1, 2} : Finset Nat)] ⟨0, false, Chan.nilc⟩).1
        ⟨0, false, Chan.nilc⟩ 5).1
      (HClone [({1, 2} : Finset Nat)] ⟨0, false, Chan.nilc⟩).2
      = hmembers (HClone [({1, 2} : Finset Nat)] ⟨0, false, Chan.nilc⟩).1
          (HClone [({1, 2} : Finset Nat)] ⟨0, false, Chan.nilc⟩).2 :=
  ⟨(c9_clone_equal_and_independent [({1, 2} : Finset Nat)] ⟨0, false, Chan.nilc⟩
      (by decide)).1,
   (c9_clone_equal_and_independent [({1, 2} : Finset Nat)] ⟨0, false, Chan.nilc⟩
      (by decide)).2.2.1 5⟩

/-- C10: `WaitForEmptyWithTimeout` never mutates the set: whenever it returns
(true or false), the post-call state is the pre-call state, so `Size`,
`Members`, and `Contains` are unchanged. -/
theorem c10_wait_does_not_mutate {T : Type} [DecidableEq T] (s : Set T)
    (timeout : Int) (r : Set T × Bool × Int)
    (hr : WaitForEmptyWithTimeout s timeout = some r) :
    r.1 = s ∧ Size r.1 = Size s ∧ Members r.1 = Members s ∧
    (∀ e, Contains r.1 e = Contains s e) := by
  obtain ⟨r1, r2, r3⟩ := r
  have h1 : r1 = s := by
    by_cases hm : s.mutex = false
    · simp [WaitForEmptyWithTimeout, hm] at hr
    · by_cases he : s.members = ∅ <;>
        · simp [WaitForEmptyWithTimeout, hm, he] at hr
          exact hr.1.symm
  subst h1
  exact ⟨rfl, rfl, rfl, fun _ => rfl⟩

/-- Witness for C10: a coordinated one-element set waited on with timeout 7
returns with its state intact. -/
theorem c10_wait_does_not_mutate_witness :
    (NewConcurrentWithInitializer [(1 : Nat)], false, (7 : Int)).1
      = NewConcurrentWithInitializer [(1 : Nat)] :=
  (c10_wait_does_not_mutate (NewConcurrentWithInitializer [(1 : Nat)]) 7
    (NewConcurrentWithInitializer [(1 : Nat)], false, 7) (by decide)).1

end SetPkg
